import Mathlib

/-!
Shallow embedding of the invoicer HTTP service (src/main.go) and proofs
about its claims.  Go byte strings are modelled as `List Nat` with every
element below 256; 32-bit words are `Nat` reduced modulo `2 ^ 32`.
The SHA-256 and HMAC primitives called by the program through Go's
standard library (`crypto/sha256`, `crypto/hmac`) are implemented here
executably, following the published algorithms, so that the CSRF token
functions of the source can be embedded faithfully.
-/

namespace Invoicer

/-- Reduce a natural number to a 32-bit word. -/
def w32 (n : Nat) : Nat := n % 4294967296

/-- Rotate a 32-bit word right by `n` bits. -/
def rotr (n x : Nat) : Nat := (x >>> n) ||| w32 (x <<< (32 - n))

/-- Logical right shift. -/
def shr (n x : Nat) : Nat := x >>> n

/-- Bitwise complement on 32-bit words. -/
def bnot32 (x : Nat) : Nat := x ^^^ 4294967295

/-- SHA-256 choice function. -/
def ch (x y z : Nat) : Nat := (x &&& y) ^^^ (bnot32 x &&& z)

/-- SHA-256 majority function. -/
def maj (x y z : Nat) : Nat := (x &&& y) ^^^ (x &&& z) ^^^ (y &&& z)

/-- SHA-256 big sigma 0. -/
def bigSigma0 (x : Nat) : Nat := rotr 2 x ^^^ rotr 13 x ^^^ rotr 22 x

/-- SHA-256 big sigma 1. -/
def bigSigma1 (x : Nat) : Nat := rotr 6 x ^^^ rotr 11 x ^^^ rotr 25 x

/-- SHA-256 small sigma 0. -/
def smallSigma0 (x : Nat) : Nat := rotr 7 x ^^^ rotr 18 x ^^^ shr 3 x

/-- SHA-256 small sigma 1. -/
def smallSigma1 (x : Nat) : Nat := rotr 17 x ^^^ rotr 19 x ^^^ shr 10 x

/-- SHA-256 round constants. -/
def sha256K : List Nat :=
  [1116352408, 1899447441, 3049323471, 3921009573, 961987163, 1508970993,
   2453635748, 2870763221, 3624381080, 310598401, 607225278, 1426881987,
   1925078388, 2162078206, 2614888103, 3248222580, 3835390401, 4022224774,
   264347078, 604807628, 770255983, 1249150122, 1555081692, 1996064986,
   2554220882, 2821834349, 2952996808, 3210313671, 3336571891, 3584528711,
   113926993, 338241895, 666307205, 773529912, 1294757372, 1396182291,
   1695183700, 1986661051, 2177026350, 2456956037, 2730485921, 2820302411,
   3259730800, 3345764771, 3516065817, 3600352804, 4094571909, 275423344,
   430227734, 506948616, 659060556, 883997877, 958139571, 1322822218,
   1537002063, 1747873779, 1955562222, 2024104815, 2227730452, 2361852424,
   2428436474, 2756734187, 3204031479, 3329325298]

/-- SHA-256 initial hash state. -/
def sha256InitH : List Nat :=
  [1779033703, 3144134277, 1013904242, 2773480762, 1359893119,
   2600822924, 528734635, 1541459225]

/-- Big-endian 8-byte encoding of a length in bits. -/
def lenBytes (n : Nat) : List Nat :=
  [n / 72057594037927936 % 256, n / 281474976710656 % 256, n / 1099511627776 % 256,
   n / 4294967296 % 256, n / 16777216 % 256, n / 65536 % 256, n / 256 % 256, n % 256]

/-- SHA-256 message padding: append 0x80, zeros, and the 64-bit bit length. -/
def padMessage (msg : List Nat) : List Nat :=
  msg ++ [128] ++ List.replicate ((64 - ((msg.length + 9) % 64)) % 64) 0 ++ lenBytes (8 * msg.length)

/-- Group bytes into big-endian 32-bit words. -/
def toWords : List Nat → List Nat
  | b0 :: b1 :: b2 :: b3 :: rest => (b0 * 16777216 + b1 * 65536 + b2 * 256 + b3) :: toWords rest
  | _ => []

/-- Split a word list into chunks of 16 words; the first argument is fuel. -/
def chunk16 : Nat → List Nat → List (List Nat)
  | 0, _ => []
  | _, [] => []
  | fuel + 1, w :: rest => ((w :: rest).take 16) :: chunk16 fuel ((w :: rest).drop 16)

/-- Extend a 16-word block to the 64-entry SHA-256 message schedule; the
first argument counts the remaining entries to append. -/
def extendSchedule : Nat → List Nat → List Nat
  | 0, ws => ws
  | n + 1, ws =>
      extendSchedule n (ws ++ [w32 (smallSigma1 (ws.getD (ws.length - 2) 0) +
        ws.getD (ws.length - 7) 0 + smallSigma0 (ws.getD (ws.length - 15) 0) +
        ws.getD (ws.length - 16) 0)])

/-- One SHA-256 compression round; the state is the 8-word working list. -/
def compressStep (st : List Nat) (wk : Nat × Nat) : List Nat :=
  let a := st.getD 0 0
  let b := st.getD 1 0
  let c := st.getD 2 0
  let d := st.getD 3 0
  let e := st.getD 4 0
  let f := st.getD 5 0
  let g := st.getD 6 0
  let h := st.getD 7 0
  let t1 := w32 (h + bigSigma1 e + ch e f g + wk.2 + wk.1)
  let t2 := w32 (bigSigma0 a + maj a b c)
  [w32 (t1 + t2), a, b, c, w32 (d + t1), e, f, g]

/-- Compress one 16-word block into the running hash state. -/
def compressBlock (h : List Nat) (block : List Nat) : List Nat :=
  let ws := extendSchedule 48 block
  let st := (ws.zip sha256K).foldl compressStep h
  (h.zip st).map (fun p => w32 (p.1 + p.2))

/-- Big-endian byte decomposition of a 32-bit word. -/
def wordBytes (w : Nat) : List Nat :=
  [w / 16777216 % 256, w / 65536 % 256, w / 256 % 256, w % 256]

/-- SHA-256 of a byte list, producing 32 bytes. -/
def sha256 (msg : List Nat) : List Nat :=
  let words := toWords (padMessage msg)
  let blocks := chunk16 words.length words
  ((blocks.foldl compressBlock sha256InitH).map wordBytes).flatten

/-- HMAC-SHA256 as implemented by Go's `crypto/hmac` with `sha256.New`:
keys longer than the 64-byte block are hashed first, the key is zero padded
to 64 bytes, and the result is `H(opad ++ H(ipad ++ msg))`. -/
def hmacSHA256 (key msg : List Nat) : List Nat :=
  let k := if 64 < key.length then sha256 key else key
  let kp := k ++ List.replicate (64 - k.length) 0
  sha256 ((kp.map (fun b => b ^^^ 92)) ++ sha256 ((kp.map (fun b => b ^^^ 54)) ++ msg))

/-- Standard base64 alphabet bytes, as used by Go `base64.StdEncoding`. -/
def b64Alphabet : List Nat :=
  (String.data "ABCDEFGHIJKLMNOPQRSTUVWXYZabcdefghijklmnopqrstuvwxyz0123456789+/").map Char.toNat

/-- Byte of the base64 alphabet at a sextet index. -/
def alphaByte (i : Nat) : Nat := b64Alphabet.getD i 0

/-- Sextet value of a byte, `none` when the byte is not in the alphabet
(this covers the padding byte 61 and every invalid byte). -/
def sextet (c : Nat) : Option Nat :=
  let i := b64Alphabet.indexOf c
  if i < 64 then some i else none

/-- Base64 standard encoding with padding, three input bytes per four
output bytes; byte 61 is the padding character. -/
def b64Encode : List Nat → List Nat
  | [] => []
  | [a] => [alphaByte (a / 4), alphaByte (a % 4 * 16), 61, 61]
  | [a, b] => [alphaByte (a / 4), alphaByte (a % 4 * 16 + b / 16), alphaByte (b % 16 * 4), 61]
  | a :: b :: c :: rest =>
      alphaByte (a / 4) :: alphaByte (a % 4 * 16 + b / 16) ::
      alphaByte (b % 16 * 4 + c / 64) :: alphaByte (c % 64) :: b64Encode rest

/-- Quantum-wise base64 decoding in the style of Go `base64.StdEncoding`:
four bytes at a time; a malformed quantum contributes no bytes and stops
decoding with an error flag; a correctly padded final quantum followed by
trailing bytes still emits its decoded bytes but reports an error, exactly
as Go `decodeQuantum` does. The boolean is `true` when no error occurred,
mirroring a nil Go error. -/
def b64DecodeQ : List Nat → List Nat × Bool
  | [] => ([], true)
  | c1 :: c2 :: c3 :: c4 :: rest =>
    match sextet c1, sextet c2 with
    | some s1, some s2 =>
      if c3 = 61 then
        if c4 = 61 then ([s1 * 4 + s2 / 16], rest.isEmpty)
        else ([], false)
      else
        match sextet c3 with
        | some s3 =>
          if c4 = 61 then ([s1 * 4 + s2 / 16, s2 % 16 * 16 + s3 / 4], rest.isEmpty)
          else
            match sextet c4 with
            | some s4 =>
              let d := b64DecodeQ rest
              ((s1 * 4 + s2 / 16) :: (s2 % 16 * 16 + s3 / 4) :: (s3 % 4 * 64 + s4) :: d.1, d.2)
            | none => ([], false)
        | none => ([], false)
    | _, _ => ([], false)
  | _ => ([], false)

/-- Go `base64.StdEncoding.DecodeString`: carriage returns and newlines are
ignored, then the input is decoded quantum by quantum, returning the bytes
decoded so far together with the error status. -/
def b64Decode (s : List Nat) : List Nat × Bool :=
  b64DecodeQ (s.filter (fun c => !(c == 10 || c == 13)))

/-- Go `strings.Split` on a one-byte separator: always returns one more
part than the number of separators; splitting the empty string yields one
empty part. -/
def splitOnByte (sep : Nat) : List Nat → List (List Nat)
  | [] => [[]]
  | c :: rest =>
    if c = sep then [] :: splitOnByte sep rest
    else
      match splitOnByte sep rest with
      | [] => [[c]]
      | p :: ps => (c :: p) :: ps

/-- Embeds `var CSRFKey []byte` (src/main.go line 198): the variable is
declared and never assigned anywhere in the program, so it stays the nil
slice, which Go HMAC treats as the empty key. -/
def CSRFKey : List Nat := []

/-- Embeds `checkCSRFToken` (src/main.go lines 200-211): splits on the
byte 36, rejects unless exactly two parts result, base64-decodes both
parts while DISCARDING the decode errors (the source uses `msg, _ :=`),
and compares the decoded MAC with HMAC-SHA256 of the decoded message
under `CSRFKey`. -/
def checkCSRFToken (token : List Nat) : Bool :=
  let tokenParts := splitOnByte 36 token
  if tokenParts.length ≠ 2 then false
  else
    let msg := (b64Decode (tokenParts.getD 0 [])).1
    let messageMAC := (b64Decode (tokenParts.getD 1 [])).1
    messageMAC == hmacSHA256 CSRFKey msg

/-- Embeds `createCSRFToken` (src/main.go lines 232-238). The 32 random
bytes produced by `rand.Read` are passed in as the parameter `msg`, making
the randomness explicit. -/
def createCSRFToken (msg : List Nat) : List Nat :=
  b64Encode msg ++ 36 :: b64Encode (hmacSHA256 CSRFKey msg)

/-- ASCII bytes of a string literal. -/
def strBytes (s : String) : List Nat := s.data.map Char.toNat

/-- Embeds `const defaultUser = "samantha"` (src/main.go line 239). -/
def defaultUser : List Nat := strBytes "samantha"

/-- Embeds `const defaultPass = "1ns3cur3"` (src/main.go line 240). -/
def defaultPass : List Nat := strBytes "1ns3cur3"

/-- Observable outcome of the index handler: status code, presence of the
WWW-Authenticate challenge header, and the CSRF token embedded in the
served page when access is granted. -/
structure IndexResponse where
  status : Nat
  wwwAuthenticate : Bool
  csrfToken : Option (List Nat)
deriving DecidableEq

/-- Embeds `requestBasicAuth` (src/main.go lines 242-246): a 401 response
carrying the WWW-Authenticate challenge. -/
def requestBasicAuthResp : IndexResponse :=
  { status := 401, wwwAuthenticate := true, csrfToken := none }

/-- First index of a byte in a byte list, `none` when absent; embeds
`strings.Index` with -1 mapped to `none`. -/
def firstIndexOfByte : List Nat → Nat → Option Nat
  | [], _ => none
  | c :: rest, b => if c = b then some 0 else (firstIndexOfByte rest b).map (· + 1)

/-- Embeds `getIndex` (src/main.go lines 248-296). The parameter `auth`
is the Authorization header bytes and `rnd` the random bytes consumed by
`createCSRFToken` on the success path. The result is `none` exactly when
the handler panics: when the decoded credentials contain no colon byte,
`strings.Index` yields -1 and the slice expression
`authstr[0:strings.Index(authstr, ":")]` is out of range. -/
def getIndex (auth : List Nat) (rnd : List Nat) : Option IndexResponse :=
  if auth.length < 8 ∨ auth.take 5 ≠ strBytes "Basic" then some requestBasicAuthResp
  else
    match b64Decode (auth.drop 6) with
    | (_, false) => some requestBasicAuthResp
    | (authstr, true) =>
      match firstIndexOfByte authstr 58 with
      | none => none
      | some idx =>
        let username := authstr.take idx
        let password := authstr.drop (idx + 1)
        if username ≠ defaultUser ∧ password ≠ defaultPass then some requestBasicAuthResp
        else some { status := 200, wwwAuthenticate := false,
                    csrfToken := some (createCSRFToken rnd) }

/-- Embeds the `Charge` struct (src/main.go lines 106-112). The Go field
`Type` is rendered as `chargeType`. `amount` is a float64 the program
never computes with, so it is carried as its opaque 64-bit pattern. -/
structure Charge where
  id : Nat
  invoiceId : Nat
  chargeType : String
  amount : Nat
  description : String
deriving DecidableEq

/-- Embeds the `Invoice` struct (src/main.go lines 97-104). The two
`time.Time` fields are opaque timestamps the program never inspects. -/
structure Invoice where
  id : Nat
  isPaid : Bool
  amount : Int
  paymentDate : Nat
  dueDate : Nat
  charges : List Charge
deriving DecidableEq

/-- The zero value of `Invoice`, which gorm leaves in place when a lookup
finds no row; the handlers detect absence through `i1.ID == 0`. -/
def zeroInvoice : Invoice :=
  { id := 0, isPaid := false, amount := 0, paymentDate := 0, dueDate := 0, charges := [] }

/-- Relational store state: the invoice and charge tables plus the next
primary keys the store will assign. -/
structure Store where
  invoices : List Invoice
  charges : List Charge
  nextInvoiceId : Nat
  nextChargeId : Nat
deriving DecidableEq

/-- A store with empty tables. -/
def emptyStore : Store := { invoices := [], charges := [], nextInvoiceId := 1, nextChargeId := 1 }

/-- Plain-text HTTP outcome of the mutating handlers. -/
structure HandlerResponse where
  status : Nat
  body : String
deriving DecidableEq

/-- Lookup of an invoice row by primary key, embedding `iv.db.First(&i1, id)`. -/
def Store.findInvoice (db : Store) (id : Nat) : Option Invoice :=
  db.invoices.find? (fun i => i.id == id)

/-- Embeds `iv.db.Create(&i1)`: the store assigns the invoice and charge
primary keys and records the rows; `fails` models an unreachable store or
failed insertion, in which case nothing is written and the error flag in
the result is `true` (gorm reports it through `.Error`). -/
def Store.createInvoice (db : Store) (inv : Invoice) (fails : Bool) : Store × Bool :=
  if fails then (db, true)
  else
    let newId := db.nextInvoiceId
    let newCharges := inv.charges.enum.map
      (fun p => { p.2 with id := db.nextChargeId + p.1, invoiceId := newId })
    let stored := { inv with id := newId, charges := newCharges }
    ({ invoices := db.invoices ++ [stored], charges := db.charges ++ newCharges,
       nextInvoiceId := newId + 1, nextChargeId := db.nextChargeId + inv.charges.length },
     false)

/-- Embeds the sanitizing loop of `postInvoice` (src/main.go lines
156-161): the invoice ID and every charge ID and `invoice_id` are forced
to the unassigned sentinel 0 before insertion. -/
def sanitizeInvoice (i : Invoice) : Invoice :=
  { i with id := 0, charges := i.charges.map (fun c => { c with id := 0, invoiceId := 0 }) }

/-- Embeds `postInvoice` (src/main.go lines 143-168). The parameter
`parsed` is the outcome of reading and `json.Unmarshal`-ing the request
body (an external collaborator); `createFails` says whether the store
insertion fails. The source DISCARDS the error of `iv.db.Create` (line
162), then reloads the last stored invoice with `iv.db.Last(&i1)` (which
leaves `i1` unchanged when the table is empty) and always responds 201. -/
def postInvoice (parsed : Except String Invoice) (db : Store) (createFails : Bool) :
    Store × HandlerResponse :=
  match parsed with
  | .error e => (db, { status := 400, body := "failed to parse request body: " ++ e })
  | .ok i0 =>
    let i1 := sanitizeInvoice i0
    let created := db.createInvoice i1 createFails
    let db2 := created.1
    let i2 := db2.invoices.getLast?.getD i1
    (db2, { status := 201, body := "created invoice " ++ toString i2.id })

/-- Outcome of the get-by-ID handler: 404 with a message, or 200 with the
serialized invoice (the `json.Marshal` error branch of the source cannot
trigger for these struct types, so it is not represented). -/
inductive GetInvoiceResult where
  | notFound (body : String)
  | ok (inv : Invoice)
deriving DecidableEq

/-- Embeds Go `html.EscapeString` on one character: the five special
characters are replaced by their HTML entities. -/
def escapeChar (c : Char) : List Char :=
  if c = '&' then String.data "&amp;"
  else if c = Char.ofNat 39 then String.data "&#39;"
  else if c = '<' then String.data "&lt;"
  else if c = '>' then String.data "&gt;"
  else if c = Char.ofNat 34 then String.data "&#34;"
  else [c]

/-- Character-list version of `html.EscapeString`. -/
def escapeList : List Char → List Char
  | [] => []
  | c :: rest => escapeChar c ++ escapeList rest

/-- Embeds Go `html.EscapeString`. -/
def escapeString (s : String) : String := String.mk (escapeList s.data)

/-- Escaping loop body of `getInvoice` (src/main.go lines 126-129). -/
def escapeCharge (c : Charge) : Charge :=
  { c with chargeType := escapeString c.chargeType,
           description := escapeString c.description }

/-- Embeds `getInvoice` (src/main.go lines 114-141): loads the invoice by
ID, responds 404 when the loaded ID is the zero sentinel, otherwise loads
the charges with matching `invoice_id`, escapes their `type` and
`description`, and responds 200 with the serialized invoice. The store is
returned unchanged: the handler only queries it. -/
def getInvoice (id : Nat) (db : Store) : Store × GetInvoiceResult :=
  let i1 := (db.findInvoice id).getD zeroInvoice
  if i1.id = 0 then (db, .notFound ("No invoice id " ++ toString id))
  else
    let cs := (db.charges.filter (fun c => c.invoiceId == i1.id)).map escapeCharge
    (db, .ok { i1 with charges := cs })

/-- Embeds `deleteInvoice` (src/main.go lines 213-230): rejects with 406
before touching the store when the CSRF token header fails verification;
otherwise deletes the charges whose `invoice_id` matches, then the invoice
row with that primary key, and responds 202. -/
def deleteInvoice (token : List Nat) (id : Nat) (db : Store) : Store × HandlerResponse :=
  if !checkCSRFToken token then (db, { status := 406, body := "Invalid CSRF Token" })
  else
    let db2 := { db with charges := db.charges.filter (fun c => !(c.invoiceId == id)) }
    let db3 := { db2 with invoices := db2.invoices.filter (fun i => !(i.id == id)) }
    (db3, { status := 202, body := "deleted invoice " ++ toString id })

/-- True when a string contains no raw angle bracket. -/
def noAngles (s : String) : Bool := s.data.all (fun c => !(c == '<' || c == '>'))

/-! Helper lemmas about the embedded primitives. -/

theorem sextet_alphaByte : ∀ s, s < 64 → sextet (alphaByte s) = some s := by decide

theorem alphaByte_ne61 : ∀ s, s < 64 → alphaByte s ≠ 61 := by decide

theorem alphaByte_mem : ∀ s, s < 64 → alphaByte s ∈ b64Alphabet := by decide

theorem b64Alphabet_no_special : ∀ x ∈ b64Alphabet, x ≠ 36 ∧ x ≠ 10 ∧ x ≠ 13 := by decide

/-- Every byte of a base64 encoding of valid bytes is an alphabet byte or
the padding byte 61. -/
theorem b64Encode_mem (m : List Nat) (h : ∀ b ∈ m, b < 256) :
    ∀ x ∈ b64Encode m, x ∈ b64Alphabet ∨ x = 61 := by
  match m with
  | [] => intro x hx; simp [b64Encode] at hx
  | [a] =>
    have ha : a < 256 := h a (by simp)
    intro x hx
    simp only [b64Encode, List.mem_cons, List.not_mem_nil, or_false] at hx
    rcases hx with rfl | rfl | rfl | rfl
    · exact Or.inl (alphaByte_mem _ (by omega))
    · exact Or.inl (alphaByte_mem _ (by omega))
    · exact Or.inr rfl
    · exact Or.inr rfl
  | [a, b] =>
    have ha : a < 256 := h a (by simp)
    have hb : b < 256 := h b (by simp)
    intro x hx
    simp only [b64Encode, List.mem_cons, List.not_mem_nil, or_false] at hx
    rcases hx with rfl | rfl | rfl | rfl
    · exact Or.inl (alphaByte_mem _ (by omega))
    · exact Or.inl (alphaByte_mem _ (by omega))
    · exact Or.inl (alphaByte_mem _ (by omega))
    · exact Or.inr rfl
  | a :: b :: c :: rest =>
    have ha : a < 256 := h a (by simp)
    have hb : b < 256 := h b (by simp)
    have hc : c < 256 := h c (by simp)
    have ih := b64Encode_mem rest (fun x hx => h x (by simp [hx]))
    intro x hx
    simp only [b64Encode, List.mem_cons] at hx
    rcases hx with rfl | rfl | rfl | rfl | hx
    · exact Or.inl (alphaByte_mem _ (by omega))
    · exact Or.inl (alphaByte_mem _ (by omega))
    · exact Or.inl (alphaByte_mem _ (by omega))
    · exact Or.inl (alphaByte_mem _ (by omega))
    · exact ih x hx

/-- No byte of a base64 encoding is the separator byte 36. -/
theorem b64Encode_ne36 (m : List Nat) (h : ∀ b ∈ m, b < 256) :
    ∀ x ∈ b64Encode m, x ≠ 36 := by
  intro x hx
  rcases b64Encode_mem m h x hx with hmem | rfl
  · exact (b64Alphabet_no_special x hmem).1
  · decide

/-- Base64 encodings contain no carriage return or newline, so the
newline filter of `b64Decode` keeps them intact. -/
theorem b64Encode_filter (m : List Nat) (h : ∀ b ∈ m, b < 256) :
    (b64Encode m).filter (fun c => !(c == 10 || c == 13)) = b64Encode m := by
  apply List.filter_eq_self.mpr
  intro x hx
  rcases b64Encode_mem m h x hx with hmem | rfl
  · have := (b64Alphabet_no_special x hmem).2
    simp only [Bool.not_eq_true', Bool.or_eq_false_iff, beq_eq_false_iff_ne]
    omega
  · decide

/-- Quantum decoding inverts encoding on valid byte lists. -/
theorem b64DecodeQ_encode (m : List Nat) (h : ∀ b ∈ m, b < 256) :
    b64DecodeQ (b64Encode m) = (m, true) := by
  match m with
  | [] => rfl
  | [a] =>
    have ha : a < 256 := h a (by simp)
    simp only [b64Encode, b64DecodeQ, sextet_alphaByte (a / 4) (by omega),
      sextet_alphaByte (a % 4 * 16) (by omega), if_true, List.isEmpty_nil,
      Prod.mk.injEq, List.cons.injEq, and_true]
    omega
  | [a, b] =>
    have ha : a < 256 := h a (by simp)
    have hb : b < 256 := h b (by simp)
    simp only [b64Encode, b64DecodeQ, sextet_alphaByte (a / 4) (by omega),
      sextet_alphaByte (a % 4 * 16 + b / 16) (by omega),
      sextet_alphaByte (b % 16 * 4) (by omega),
      if_neg (alphaByte_ne61 (b % 16 * 4) (by omega)), if_true, List.isEmpty_nil,
      Prod.mk.injEq, List.cons.injEq, and_true]
    omega
  | a :: b :: c :: rest =>
    have ha : a < 256 := h a (by simp)
    have hb : b < 256 := h b (by simp)
    have hc : c < 256 := h c (by simp)
    have ih := b64DecodeQ_encode rest (fun x hx => h x (by simp [hx]))
    simp only [b64Encode, b64DecodeQ, sextet_alphaByte (a / 4) (by omega),
      sextet_alphaByte (a % 4 * 16 + b / 16) (by omega),
      sextet_alphaByte (b % 16 * 4 + c / 64) (by omega),
      sextet_alphaByte (c % 64) (by omega),
      if_neg (alphaByte_ne61 (b % 16 * 4 + c / 64) (by omega)),
      if_neg (alphaByte_ne61 (c % 64) (by omega)), ih,
      Prod.mk.injEq, List.cons.injEq, and_true, and_self]
    omega

/-- Go base64 decoding inverts encoding on valid byte lists with no error. -/
theorem b64Decode_encode (m : List Nat) (h : ∀ b ∈ m, b < 256) :
    b64Decode (b64Encode m) = (m, true) := by
  rw [b64Decode, b64Encode_filter m h, b64DecodeQ_encode m h]

/-- Splitting a list free of the separator yields that single part. -/
theorem splitOnByte_free (sep : Nat) (q : List Nat) (hq : ∀ x ∈ q, x ≠ sep) :
    splitOnByte sep q = [q] := by
  induction q with
  | nil => rfl
  | cons c rest ih =>
    have hc : c ≠ sep := hq c (by simp)
    have ih2 := ih (fun x hx => hq x (by simp [hx]))
    simp only [splitOnByte, if_neg hc, ih2]

/-- Splitting `p ++ sep :: q` where neither part contains the separator
yields exactly the two parts. -/
theorem splitOnByte_pair (sep : Nat) (p q : List Nat)
    (hp : ∀ x ∈ p, x ≠ sep) (hq : ∀ x ∈ q, x ≠ sep) :
    splitOnByte sep (p ++ sep :: q) = [p, q] := by
  induction p with
  | nil => simp [splitOnByte, splitOnByte_free sep q hq]
  | cons c rest ih =>
    have hc : c ≠ sep := hp c (by simp)
    have ih2 := ih (fun x hx => hp x (by simp [hx]))
    simp only [List.cons_append, splitOnByte, if_neg hc, List.append_eq, ih2]

/-- Every byte of a word decomposition is below 256. -/
theorem wordBytes_lt (w : Nat) : ∀ b ∈ wordBytes w, b < 256 := by
  intro b hb
  simp only [wordBytes, List.mem_cons, List.not_mem_nil, or_false] at hb
  rcases hb with rfl | rfl | rfl | rfl <;> exact Nat.mod_lt _ (by omega)

/-- Every byte produced by the SHA-256 embedding is below 256. -/
theorem sha256_lt (m : List Nat) : ∀ b ∈ sha256 m, b < 256 := by
  intro b hb
  simp only [sha256, List.mem_flatten, List.mem_map] at hb
  obtain ⟨l, ⟨w, _, rfl⟩, hbl⟩ := hb
  exact wordBytes_lt w b hbl

/-- Every byte produced by the HMAC-SHA256 embedding is below 256. -/
theorem hmacSHA256_lt (k m : List Nat) : ∀ b ∈ hmacSHA256 k m, b < 256 := by
  intro b hb
  simp only [hmacSHA256] at hb
  exact sha256_lt _ b hb

/-- Verification of a token assembled from two base64-encoded pieces
reduces to comparing the second piece with the HMAC of the first. -/
theorem checkCSRFToken_pair (m mac : List Nat)
    (hm : ∀ b ∈ m, b < 256) (hmac : ∀ b ∈ mac, b < 256) :
    checkCSRFToken (b64Encode m ++ 36 :: b64Encode mac) =
      (mac == hmacSHA256 CSRFKey m) := by
  have hsplit := splitOnByte_pair 36 (b64Encode m) (b64Encode mac)
    (b64Encode_ne36 m hm) (b64Encode_ne36 mac hmac)
  unfold checkCSRFToken
  rw [hsplit]
  simp only [List.length_cons, List.length_nil, List.getD_cons_zero, List.getD_cons_succ,
    b64Decode_encode m hm, b64Decode_encode mac hmac]
  simp

/-- Single characters escaped by `escapeChar` never contain a raw angle
bracket. -/
theorem escapeChar_noAngles (c : Char) :
    (escapeChar c).all (fun x => !(x == '<' || x == '>')) = true := by
  simp only [escapeChar]
  split
  · decide
  · split
    · decide
    · split
      · decide
      · split
        · decide
        · split
          · decide
          · rename_i h1 h2 h3 h4 h5
            simp [h3, h4]

/-- Escaped character lists never contain a raw angle bracket. -/
theorem escapeList_noAngles (l : List Char) :
    (escapeList l).all (fun x => !(x == '<' || x == '>')) = true := by
  induction l with
  | nil => rfl
  | cons c rest ih =>
    simp only [escapeList, List.all_append, escapeChar_noAngles c, ih, Bool.and_self]

/-- Escaped strings never contain a raw angle bracket. -/
theorem noAngles_escapeString (s : String) : noAngles (escapeString s) = true :=
  escapeList_noAngles s.data

/-- Tokens produced by `createCSRFToken` pass `checkCSRFToken`. -/
theorem check_of_create (msg : List Nat) (h : ∀ b ∈ msg, b < 256) :
    checkCSRFToken (createCSRFToken msg) = true := by
  unfold createCSRFToken
  rw [checkCSRFToken_pair msg (hmacSHA256 CSRFKey msg) h (hmacSHA256_lt _ _)]
  simp

/-! Sample data used by witnesses. -/

/-- A stored charge whose text fields contain raw HTML. -/
def sampleCharge : Charge :=
  { id := 1, invoiceId := 1, chargeType := "fee", amount := 0,
    description := "<script>alert(1)</script>" }

/-- A stored invoice row. -/
def sampleInvoice : Invoice :=
  { id := 1, isPaid := false, amount := 500, paymentDate := 0, dueDate := 0, charges := [] }

/-- A store holding one invoice with one charge. -/
def sampleStore : Store :=
  { invoices := [sampleInvoice], charges := [sampleCharge],
    nextInvoiceId := 2, nextChargeId := 2 }

/-- The serialized invoice served for `sampleStore`, with escaped charge text. -/
def escapedSampleInvoice : Invoice :=
  { id := 1, isPaid := false, amount := 500, paymentDate := 0, dueDate := 0,
    charges := [{ id := 1, invoiceId := 1, chargeType := "fee", amount := 0,
                  description := "&lt;script&gt;alert(1)&lt;/script&gt;" }] }

/-! Claim theorems. -/

/-- Claim C1: the claim demands a 401 whenever the username or the
password is wrong, but the source condition
`username != defaultUser && password != defaultPass` rejects only when
both are wrong. Evaluating the embedded handler on the failing input — a
Basic credential decoding to `samantha:wrongpass`, correct username,
wrong password — shows the index page is served with status 200 instead
of the 401 the claim requires. -/
theorem c1_wrong_password_grants_access :
    strBytes "wrongpass" ≠ defaultPass ∧
    (getIndex (strBytes "Basic " ++ b64Encode (strBytes "samantha:wrongpass")) []).map
      IndexResponse.status = some 200 := by
  constructor
  · decide
  · decide

/-- Claim C2: `CSRFKey` is declared (src/main.go line 198) and never
assigned, so it stays the empty byte slice; consequently for every
32-byte message `m` the token `base64(m) ++ byte 36 ++
base64(HMAC-SHA256(empty key, m))` passes `checkCSRFToken`, so valid
tokens require no secret material. -/
theorem c2_empty_key_forgeable :
    CSRFKey = [] ∧
    ∀ m : List Nat, (∀ b ∈ m, b < 256) → m.length = 32 →
      checkCSRFToken (b64Encode m ++ 36 :: b64Encode (hmacSHA256 [] m)) = true := by
  refine ⟨rfl, fun m hm _ => ?_⟩
  rw [checkCSRFToken_pair m (hmacSHA256 [] m) hm (hmacSHA256_lt [] m)]
  simp [CSRFKey]

/-- Witness for claim C2 at the concrete 32-byte message of zeros. -/
theorem c2_empty_key_forgeable_witness :
    CSRFKey = [] ∧
    checkCSRFToken (b64Encode (List.replicate 32 0) ++
      36 :: b64Encode (hmacSHA256 [] (List.replicate 32 0))) = true :=
  ⟨c2_empty_key_forgeable.1,
   c2_empty_key_forgeable.2 (List.replicate 32 0) (by decide) (by decide)⟩

/-- Claim C3: the claim says a Basic credential that decodes to a string
without a colon yields a 401 challenge with no crash, but the source
computes `strings.Index(authstr, ":")`, which is -1, and then slices
`authstr[0:-1]`, which panics. On the failing input — a Basic credential
decoding to `userpass`, which contains no colon byte — the embedded
handler reaches the panic outcome (`none`) instead of a 401 response. -/
theorem c3_missing_colon_panics :
    firstIndexOfByte (strBytes "userpass") 58 = none ∧
    getIndex (strBytes "Basic " ++ b64Encode (strBytes "userpass")) [] = none := by
  constructor
  · decide
  · decide

/-- Claim C4: every delete request whose CSRF token fails verification is
answered with 406 and the store is returned exactly as it was: no charge
row and no invoice row is deleted. -/
theorem c4_invalid_csrf_keeps_store (token : List Nat) (id : Nat) (db : Store)
    (h : checkCSRFToken token = false) :
    deleteInvoice token id db = (db, { status := 406, body := "Invalid CSRF Token" }) := by
  simp [deleteInvoice, h]

/-- Witness for claim C4 on a concrete malformed token and store. -/
theorem c4_invalid_csrf_keeps_store_witness :
    checkCSRFToken (strBytes "not a token") = false ∧
    deleteInvoice (strBytes "not a token") 1 sampleStore =
      (sampleStore, { status := 406, body := "Invalid CSRF Token" }) :=
  ⟨by decide, c4_invalid_csrf_keeps_store (strBytes "not a token") 1 sampleStore (by decide)⟩

set_option maxRecDepth 1000000 in
/-- Claim C5 counterexample: the claim states that `checkCSRFToken`
returns false whenever a part fails base64 decoding, but the source
discards the decode errors. The token `byte 33 ++ byte 36 ++
base64(HMAC-SHA256(key, empty))` has a first part `[33]` that fails
decoding (error flag false, partial result empty), yet the whole token
VERIFIES, because the HMAC of the empty partial decode matches. -/
theorem c5_decode_failure_still_verifies :
    (b64Decode [33]).2 = false ∧
    checkCSRFToken (33 :: 36 :: b64Encode (hmacSHA256 [] [])) = true := by
  constructor
  · decide
  · decide

/-- Claim C5 as amended: `checkCSRFToken` returns false when splitting on
byte 36 does not yield exactly two parts; base64 decode failures are
IGNORED and the partially decoded bytes are used; the token verifies iff
there are exactly two parts and the partial decode of the second equals
HMAC-SHA256 of the partial decode of the first under the process key. -/
theorem c5_verify_characterization (token : List Nat) :
    checkCSRFToken token = true ↔
      ((splitOnByte 36 token).length = 2 ∧
        (b64Decode ((splitOnByte 36 token).getD 1 [])).1 =
          hmacSHA256 CSRFKey ((b64Decode ((splitOnByte 36 token).getD 0 [])).1)) := by
  unfold checkCSRFToken
  by_cases h : (splitOnByte 36 token).length = 2
  · simp [h]
  · simp [h]

/-- Claim C6 counterexample: the claim states a create whose store
insertion fails does not respond 201, but the source never checks the
error of `iv.db.Create`. With a failing store (the insertion writes
nothing and reports an error) the embedded handler still responds 201. -/
theorem c6_failed_insert_still_201 :
    (emptyStore.createInvoice (sanitizeInvoice { zeroInvoice with amount := 7 }) true).2 = true ∧
    postInvoice (.ok { zeroInvoice with amount := 7 }) emptyStore true =
      (emptyStore, { status := 201, body := "created invoice 0" }) := by
  constructor
  · decide
  · decide

/-- Claim C6 as amended: store errors are discarded by the handlers; a
create whose store insertion fails leaves the store unchanged and still
responds 201, and no 500 is produced for store failures. -/
theorem c6_store_errors_ignored (i : Invoice) (db : Store) :
    (postInvoice (.ok i) db true).1 = db ∧
    (postInvoice (.ok i) db true).2.status = 201 := by
  simp [postInvoice, Store.createInvoice]

/-- Claim C7: every token returned by `createCSRFToken` passes
`checkCSRFToken` under the same process key. -/
theorem c7_created_token_verifies (msg : List Nat) (h : ∀ b ∈ msg, b < 256) :
    checkCSRFToken (createCSRFToken msg) = true :=
  check_of_create msg h

/-- Witness for claim C7 at a concrete 32-byte random message. -/
theorem c7_created_token_verifies_witness :
    checkCSRFToken (createCSRFToken (List.replicate 32 1)) = true :=
  c7_created_token_verifies (List.replicate 32 1) (by decide)

/-- Claim C8: for every parsed create body, the invoice ID and every
nested charge ID and `invoice_id` are forced to the zero sentinel before
insertion, and the handler passes exactly that sanitized invoice to the
store, so client-supplied identities are always discarded. -/
theorem c8_client_ids_discarded (i : Invoice) (db : Store) (createFails : Bool) :
    (postInvoice (.ok i) db createFails).1 =
      (db.createInvoice (sanitizeInvoice i) createFails).1 ∧
    (sanitizeInvoice i).id = 0 ∧
    (sanitizeInvoice i).charges.all (fun c => c.id == 0 && c.invoiceId == 0) = true := by
  refine ⟨rfl, rfl, ?_⟩
  simp [sanitizeInvoice, List.all_map, Function.comp]

/-- Claim C9: whenever get-by-ID succeeds, every charge in the response
has its `type` and `description` free of raw angle brackets, and the
store is returned unmodified. -/
theorem c9_response_escaped (id : Nat) (db : Store) (inv : Invoice)
    (h : (getInvoice id db).2 = .ok inv) :
    (getInvoice id db).1 = db ∧
    inv.charges.all (fun c => noAngles c.chargeType && noAngles c.description) = true := by
  constructor
  · simp only [getInvoice]
    split <;> rfl
  · revert h
    simp only [getInvoice]
    split
    · intro h
      simp at h
    · intro h
      simp only [GetInvoiceResult.ok.injEq] at h
      subst h
      simp [List.all_map, Function.comp, escapeCharge, noAngles_escapeString]

/-- Witness for claim C9 on a store holding a charge with raw HTML. -/
theorem c9_response_escaped_witness :
    (getInvoice 1 sampleStore).2 = .ok escapedSampleInvoice ∧
    ((getInvoice 1 sampleStore).1 = sampleStore ∧
      escapedSampleInvoice.charges.all
        (fun c => noAngles c.chargeType && noAngles c.description) = true) :=
  ⟨by decide, c9_response_escaped 1 sampleStore escapedSampleInvoice (by decide)⟩

/-- Claim C10: every delete request with a verifying CSRF token removes
the charges whose `invoice_id` matches the path id, then the invoice row
with that primary key, and responds 202 with a confirmation naming the
id — for every store, including stores with no such invoice. -/
theorem c10_delete_cascade (token : List Nat) (id : Nat) (db : Store)
    (h : checkCSRFToken token = true) :
    deleteInvoice token id db =
      ({ db with charges := db.charges.filter (fun c => !(c.invoiceId == id)),
                 invoices := db.invoices.filter (fun i => !(i.id == id)) },
       { status := 202, body := "deleted invoice " ++ toString id }) := by
  simp [deleteInvoice, h]

/-- Witness for claim C10 with a concrete verifying token against the
sample store. -/
theorem c10_delete_cascade_witness :
    deleteInvoice (createCSRFToken (List.replicate 32 2)) 1 sampleStore =
      ({ sampleStore with
          charges := sampleStore.charges.filter (fun c => !(c.invoiceId == 1)),
          invoices := sampleStore.invoices.filter (fun i => !(i.id == 1)) },
       { status := 202, body := "deleted invoice " ++ toString 1 }) :=
  c10_delete_cascade (createCSRFToken (List.replicate 32 2)) 1 sampleStore
    (check_of_create (List.replicate 32 2) (by decide))

end Invoicer
